import Mathlib

/-!
Shallow embedding of the calorie-tracker bot (src/calorie_bot_v2.py).

The durable state is two collections: the `entries` table (id, user, chat,
timestamp, food, kcal) and the `chats` table (known chat ids).  Timestamps
are modelled as natural numbers (an absolute instant in the storage
reference frame, in seconds); the day window returned by `_today_range`
is then `(dayStart, dayStart + 86400)`, mirroring `start` / `start +
timedelta(days=1)`.  The SQL `BETWEEN ? AND ?` operator is inclusive at
both ends and is embedded as `start ≤ ts ∧ ts ≤ end`.  The SQLite
`AUTOINCREMENT` id assignment is modelled with a `nextId` counter, and a
row insert appends to the entry list (rowid order = insertion order).
The current instant is supplied to each operation as parameters (`hour`
for `now_sgt().hour`, `ts` for `dt.datetime.utcnow()`, `dayStart` for the
UTC instant of local midnight used by `_today_range`).
-/

/-- One row of the `entries` table (id, user_id, chat_id, ts_utc, food, kcal). -/
structure Entry where
  id : Nat
  user : Int
  chat : Int
  ts : Nat
  food : String
  kcal : Int
deriving Repr, DecidableEq

/-- The durable state: the `entries` table (in rowid order), the
AUTOINCREMENT counter, and the `chats` table. -/
structure Store where
  entries : List Entry
  nextId : Nat
  chats : List Int
deriving Repr, DecidableEq

/-- QUIET_START = 22 (22:00 inclusive). -/
def QUIET_START : Nat := 22

/-- QUIET_END = 0 (00:00 exclusive). -/
def QUIET_END : Nat := 0

/-- `in_quiet_window(ts)` returns `ts.hour >= QUIET_START or ts.hour < QUIET_END`.
The two configurable hour thresholds are passed explicitly (they are module
globals in the source); the hour is the fixed-timezone hour-of-day. -/
def in_quiet_window (qs qe hour : Nat) : Bool :=
  decide (hour ≥ qs) || decide (hour < qe)

/-- `_today_range()` : start = local midnight expressed in the storage frame,
end = start + 1 day. -/
def _today_range (dayStart : Nat) : Nat × Nat :=
  (dayStart, dayStart + 86400)

/-- `register_chat(chat_id)` : `INSERT OR IGNORE INTO chats`. -/
def register_chat (s : Store) (cid : Int) : Store :=
  if cid ∈ s.chats then s else { s with chats := s.chats ++ [cid] }

/-- `add_entry(uid, cid, food, kcal)` : INSERT a fresh row stamped with the
current instant; AUTOINCREMENT assigns the next id. -/
def add_entry (s : Store) (uid cid : Int) (food : String) (kcal : Int) (ts : Nat) : Store :=
  { s with
      entries := s.entries ++ [⟨s.nextId, uid, cid, ts, food, kcal⟩],
      nextId := s.nextId + 1 }

/-- Row predicate of `todays_entries` / `reset_today` :
`user_id=? AND chat_id=? AND ts_utc BETWEEN ? AND ?` (BETWEEN is inclusive). -/
def entry_in_window (uid cid : Int) (startTs endTs : Nat) (e : Entry) : Bool :=
  decide (e.user = uid) && decide (e.chat = cid) &&
    decide (startTs ≤ e.ts) && decide (e.ts ≤ endTs)

/-- `todays_entries(uid, cid)` : SELECT id, food, kcal of the matching rows,
ORDER BY id (embedded as a sort of the selected rows by id). -/
def todays_entries (s : Store) (uid cid : Int) (dayStart : Nat) :
    List (Nat × String × Int) :=
  let r := _today_range dayStart
  List.insertionSort (fun a b => a.1 ≤ b.1)
    ((s.entries.filter (entry_in_window uid cid r.1 r.2)).map
      (fun e => (e.id, e.food, e.kcal)))

/-- `delete_entry(row_id)` : `DELETE FROM entries WHERE id=?`. -/
def delete_entry (s : Store) (rowId : Nat) : Store :=
  { s with entries := s.entries.filter (fun e => decide (e.id ≠ rowId)) }

/-- `reset_today(uid, cid)` : DELETE the rows matching the same predicate as
`todays_entries`. -/
def reset_today (s : Store) (uid cid : Int) (dayStart : Nat) : Store :=
  let r := _today_range dayStart
  { s with entries := s.entries.filter (fun e => !(entry_in_window uid cid r.1 r.2 e)) }

/-- Row predicate of `day_details` : `chat_id=? AND ts_utc BETWEEN ? AND ?`. -/
def chat_in_window (cid : Int) (startTs endTs : Nat) (e : Entry) : Bool :=
  decide (e.chat = cid) && decide (startTs ≤ e.ts) && decide (e.ts ≤ endTs)

/-- The SELECT of `day_details` : the (user_id, (food, kcal)) rows of the chat
inside the day window, in rowid order. -/
def day_rows (s : Store) (cid : Int) (dayStart : Nat) : List (Int × String × Int) :=
  let r := _today_range dayStart
  (s.entries.filter (chat_in_window cid r.1 r.2)).map (fun e => (e.user, e.food, e.kcal))

/-- `out.setdefault(uid, []).append((food, kcal))` : append the pair to the
group of `u`, creating the group at the end if absent (dicts preserve key
insertion order). -/
def add_row (out : List (Int × List (String × Int))) (u : Int) (p : String × Int) :
    List (Int × List (String × Int)) :=
  match out with
  | [] => [(u, [p])]
  | (v, l) :: rest =>
      if v = u then (v, l ++ [p]) :: rest else (v, l) :: add_row rest u p

/-- `day_details(cid)` : group the selected rows by user with `setdefault`. -/
def day_details (s : Store) (cid : Int) (dayStart : Nat) :
    List (Int × List (String × Int)) :=
  (day_rows s cid dayStart).foldl (fun out r => add_row out r.1 r.2) []

/-- `all_chat_ids()` : SELECT chat_id FROM chats. -/
def all_chat_ids (s : Store) : List Int :=
  s.chats

/-- Association lookup in a `day_details` result (`det.get(uid)`). -/
def lookup_group (u : Int) : List (Int × List (String × Int)) → Option (List (String × Int))
  | [] => none
  | (v, l) :: rest => if v = u then some l else lookup_group u rest

/-- Command-text helpers: `msg.text.partition(" ")[2]` over the character list
(everything after the first space; empty if there is no space). -/
def after_first_space : List Char → List Char
  | [] => []
  | c :: rest => if c = ' ' then rest else after_first_space rest

/-- Python `str.strip()` : drop whitespace at both ends. -/
def strip_ws (cs : List Char) : List Char :=
  ((cs.dropWhile Char.isWhitespace).reverse.dropWhile Char.isWhitespace).reverse

/-- `arg_line.rsplit(" ", 1)` : split at the LAST space; `none` models the
ValueError when the line holds no space at all. -/
def rsplit_once : List Char → Option (List Char × List Char)
  | [] => none
  | c :: rest =>
      match rsplit_once rest with
      | some (f, k) => some (c :: f, k)
      | none => if c = ' ' then some ([], rest) else none

/-- Digit accumulator of `int(...)`. -/
def digits_go (acc : Nat) : List Char → Option Nat
  | [] => some acc
  | c :: rest => if c.isDigit then digits_go (acc * 10 + (c.toNat - 48)) rest else none

/-- Nonempty all-digit string value. -/
def digits_val : List Char → Option Int
  | [] => none
  | c :: rest => (digits_go 0 (c :: rest)).map Int.ofNat

/-- Python `int(kcal_str)` : optional sign then decimal digits, surrounding
whitespace ignored; `none` models the ValueError. -/
def parse_int (cs : List Char) : Option Int :=
  match strip_ws cs with
  | '-' :: rest => (digits_val rest).map (fun n => -n)
  | '+' :: rest => digits_val rest
  | t => digits_val t

/-- The three replies `cmd_add` can produce: the quiet-window scold, the
usage hint, or the confirmation. -/
inductive Reply where
  | quiet : Reply
  | usage : Reply
  | added : String → Int → Reply
deriving Repr, DecidableEq

/-- `cmd_add(msg)` : register the chat, reject during the quiet window,
parse `<food> <kcal>` (split from the right), then insert.  `hour` is
`now_sgt().hour`, `ts` the insert timestamp `utcnow()`. -/
def cmd_add (s : Store) (uid cid : Int) (text : String) (hour : Nat) (ts : Nat) :
    Store × Reply :=
  let s1 := register_chat s cid
  if in_quiet_window QUIET_START QUIET_END hour then (s1, Reply.quiet)
  else
    let argLine := strip_ws (after_first_space text.toList)
    match rsplit_once argLine with
    | none => (s1, Reply.usage)
    | some (foodPart, kcalStr) =>
        match parse_int kcalStr with
        | none => (s1, Reply.usage)
        | some kcal =>
            let food := String.mk (strip_ws foodPart)
            (add_entry s1 uid cid food kcal ts, Reply.added food kcal)

/-- `send_chat_recap(cid)` : return without contacting the notifier when the
breakdown is empty; otherwise call the notifier.  `deliver cid = false`
models `BOT.send_message` raising for that chat; `none` means the notifier
was not called at all. -/
def send_chat_recap (s : Store) (deliver : Int → Bool) (cid : Int) (dayStart : Nat) :
    Option Bool :=
  if day_details s cid dayStart = [] then none else some (deliver cid)

/-- The `for cid in all_chat_ids()` loop of `nightly_job`, with the per-chat
`try/except` : a failed delivery is logged and the loop continues.  Returns
the chats for which the notifier was actually called. -/
def run_recap_loop (s : Store) (deliver : Int → Bool) (dayStart : Nat) :
    List Int → List Int
  | [] => []
  | cid :: rest =>
      match send_chat_recap s deliver cid dayStart with
      | none => run_recap_loop s deliver dayStart rest
      | some _ => cid :: run_recap_loop s deliver dayStart rest

/-- `nightly_job()` : run the recap over every registered chat. -/
def nightly_job (s : Store) (deliver : Int → Bool) (dayStart : Nat) : List Int :=
  run_recap_loop s deliver dayStart (all_chat_ids s)

/-- The day-window membership the spec describes: the half-open interval
`[start, start + 24h)`.  (Spec-side definition, for comparison with the
code's inclusive BETWEEN.) -/
def in_day_window_spec (dayStart ts : Nat) : Prop :=
  dayStart ≤ ts ∧ ts < dayStart + 86400

instance : DecidablePred (fun ts => in_day_window_spec 0 ts) := by
  intro ts
  unfold in_day_window_spec
  infer_instance

/-- A store is well formed when every stored id is below the AUTOINCREMENT
counter (true of every state reachable by the operations). -/
def StoreWF (s : Store) : Prop :=
  ∀ e ∈ s.entries, e.id < s.nextId

/-- Ordering by the id component is total (used for the ORDER BY embedding). -/
instance : IsTotal (Nat × String × Int) (fun a b => a.1 ≤ b.1) :=
  ⟨fun a b => Nat.le_total a.1 b.1⟩

/-- Ordering by the id component is transitive (used for the ORDER BY embedding). -/
instance : IsTrans (Nat × String × Int) (fun a b => a.1 ≤ b.1) :=
  ⟨fun _ _ _ h1 h2 => le_trans h1 h2⟩

/-- Day-window membership of the spec is decidable. -/
instance (dayStart ts : Nat) : Decidable (in_day_window_spec dayStart ts) := by
  unfold in_day_window_spec
  infer_instance

/-- A concrete store used by witness theorems: one entry (id 1, user 7,
chat 1, timestamp 0, "a", 5 kcal) and two registered chats 1 and 2. -/
def storeA : Store := ⟨[⟨1, 7, 1, 0, "a", 5⟩], 2, [1, 2]⟩

theorem register_chat_entries (s : Store) (cid : Int) :
    (register_chat s cid).entries = s.entries := by
  unfold register_chat; split <;> rfl

theorem register_chat_nextId (s : Store) (cid : Int) :
    (register_chat s cid).nextId = s.nextId := by
  unfold register_chat; split <;> rfl

theorem register_chat_chats (s : Store) (cid : Int) :
    (register_chat s cid).chats = if cid ∈ s.chats then s.chats else s.chats ++ [cid] := by
  unfold register_chat; split <;> rfl

/-- C3: with QUIET_START = 22 and QUIET_END = 0 the restricted-window
predicate is false at hour 21, true at hours 22 and 23, false at hour 0,
and in general true exactly for the hours 22 and 23 of the day: the quiet
window is exactly [22:00, 24:00). -/
theorem quiet_window_default_boundary :
    in_quiet_window QUIET_START QUIET_END 21 = false ∧
    in_quiet_window QUIET_START QUIET_END 22 = true ∧
    in_quiet_window QUIET_START QUIET_END 23 = true ∧
    in_quiet_window QUIET_START QUIET_END 0 = false ∧
    ∀ h : Nat, h < 24 → (in_quiet_window QUIET_START QUIET_END h = true ↔ (h = 22 ∨ h = 23)) := by
  refine ⟨by decide, by decide, by decide, by decide, by decide⟩

/-- Witness for C3 at hour 23. -/
theorem quiet_window_default_boundary_witness :
    23 < 24 ∧ (in_quiet_window QUIET_START QUIET_END 23 = true ↔ (23 = 22 ∨ 23 = 23)) :=
  ⟨by decide, quiet_window_default_boundary.2.2.2.2 23 (by decide)⟩

/-- C4 counterexample: in the configuration QUIET_START = 9, QUIET_END = 17
(QUIET_END > QUIET_START) hour 8 is restricted by the code although it does
not lie in [9, 17), so the predicate does not implement a distinct
non-wrapping branch. -/
theorem quiet_window_two_branch_cex :
    9 < 17 ∧ in_quiet_window 9 17 8 = true ∧ ¬(9 ≤ 8 ∧ 8 < 17) := by decide

/-- C4 (amended): the restricted-window predicate is one single expression
for every configuration: an instant is restricted exactly when its hour is
≥ QUIET_START or < QUIET_END.  For QUIET_END ≤ QUIET_START this is the
wrapping semantics; there is no separate branch for QUIET_END >
QUIET_START, and in that configuration the predicate is true at every
hour. -/
theorem quiet_window_single_form (qs qe h : Nat) :
    (in_quiet_window qs qe h = true ↔ (qs ≤ h ∨ h < qe)) ∧
    (qs < qe → in_quiet_window qs qe h = true) := by
  constructor
  · simp [in_quiet_window, Bool.or_eq_true, decide_eq_true_eq, ge_iff_le]
  · intro hlt
    rcases Nat.lt_or_ge h qe with hc | hc
    · simp [in_quiet_window, hc]
    · have hqs : qs ≤ h := le_trans (Nat.le_of_lt hlt) hc
      simp [in_quiet_window, hqs]

/-- Witness for C4's amended theorem at configuration (9, 17), hour 20. -/
theorem quiet_window_single_form_witness :
    9 < 17 ∧ in_quiet_window 9 17 20 = true :=
  ⟨by decide, (quiet_window_single_form 9 17 20).2 (by decide)⟩

/-- C9: `delete_entry` is idempotent (a second deletion of the same id
changes nothing) and deleting an id that is not present is a no-op rather
than an error. -/
theorem delete_entry_idempotent_total (s : Store) (rowId : Nat) :
    delete_entry (delete_entry s rowId) rowId = delete_entry s rowId ∧
    ((∀ e ∈ s.entries, e.id ≠ rowId) → delete_entry s rowId = s) := by
  constructor
  · rcases s with ⟨es, ni, ch⟩
    simp [delete_entry, List.filter_filter]
  · intro h
    rcases s with ⟨es, ni, ch⟩
    simp only [delete_entry, Store.mk.injEq, and_true, true_and]
    exact List.filter_eq_self.mpr (fun e he => decide_eq_true (h e he))

/-- Witness for C9: deleting the absent id 7 from a one-entry store is a
no-op. -/
theorem delete_entry_idempotent_total_witness :
    (∀ e ∈ (⟨[⟨1, 1, 1, 0, "a", 5⟩], 2, []⟩ : Store).entries, e.id ≠ 7) ∧
    delete_entry (⟨[⟨1, 1, 1, 0, "a", 5⟩], 2, []⟩ : Store) 7 = ⟨[⟨1, 1, 1, 0, "a", 5⟩], 2, []⟩ :=
  ⟨by decide, (delete_entry_idempotent_total ⟨[⟨1, 1, 1, 0, "a", 5⟩], 2, []⟩ 7).2 (by decide)⟩

/-- C1 (amended): an add attempted inside the restricted window is rejected
with the quiet-window reply, writes no entry, leaves the id counter alone
and leaves every `todays_entries` result unchanged; the only possible
mutation is that the chat id is registered (the registration happens
before the window check). -/
theorem add_in_quiet_window_no_entry (s : Store) (uid cid : Int) (text : String)
    (hour ts : Nat) (hq : in_quiet_window QUIET_START QUIET_END hour = true) :
    (cmd_add s uid cid text hour ts).2 = Reply.quiet ∧
    (cmd_add s uid cid text hour ts).1.entries = s.entries ∧
    (cmd_add s uid cid text hour ts).1.nextId = s.nextId ∧
    (∀ u c d, todays_entries (cmd_add s uid cid text hour ts).1 u c d = todays_entries s u c d) ∧
    (cmd_add s uid cid text hour ts).1.chats =
      (if cid ∈ s.chats then s.chats else s.chats ++ [cid]) := by
  have hstate : cmd_add s uid cid text hour ts = (register_chat s cid, Reply.quiet) := by
    simp [cmd_add, hq]
  rw [hstate]
  refine ⟨rfl, register_chat_entries s cid, register_chat_nextId s cid, ?_, register_chat_chats s cid⟩
  intro u c d
  simp [todays_entries, register_chat_entries]

/-- Witness for C1's amended theorem at hour 23. -/
theorem add_in_quiet_window_no_entry_witness :
    in_quiet_window QUIET_START QUIET_END 23 = true ∧
    (cmd_add ⟨[], 1, []⟩ 1 5 "/add x 5" 23 0).2 = Reply.quiet :=
  ⟨by decide, (add_in_quiet_window_no_entry ⟨[], 1, []⟩ 1 5 "/add x 5" 23 0 (by decide)).1⟩

/-- C1 counterexample: an add rejected during the quiet window from a chat
that was not yet registered still mutates the stored chat collection, so
the attempt is not free of state change. -/
theorem add_in_quiet_window_registers_chat_cex :
    in_quiet_window QUIET_START QUIET_END 22 = true ∧
    (cmd_add ⟨[], 1, []⟩ 1 5 "/add fish and chips 500" 22 7).1 ≠ (⟨[], 1, []⟩ : Store) := by
  decide

/-- C2: outside the restricted window, a valid add (its argument line parses
into a food part and an integer kcal) followed by `todays_entries` for the
same user and chat within the same day window returns the newly created
entry exactly once, with the stored (trimmed) food label and the same kcal
value. -/
theorem add_then_list_today (s : Store) (uid cid : Int) (text : String)
    (foodPart kcalStr : List Char) (kcal : Int) (hour ts d : Nat)
    (hwf : StoreWF s)
    (hq : in_quiet_window QUIET_START QUIET_END hour = false)
    (hp : rsplit_once (strip_ws (after_first_space text.toList)) = some (foodPart, kcalStr))
    (hk : parse_int kcalStr = some kcal)
    (h1 : d ≤ ts) (h2 : ts < d + 86400) :
    (cmd_add s uid cid text hour ts).2 = Reply.added (String.mk (strip_ws foodPart)) kcal ∧
    (s.nextId, String.mk (strip_ws foodPart), kcal) ∈
      todays_entries (cmd_add s uid cid text hour ts).1 uid cid d ∧
    (todays_entries (cmd_add s uid cid text hour ts).1 uid cid d).countP
      (fun t => t.1 == s.nextId) = 1 := by
  have hstate : cmd_add s uid cid text hour ts =
      (add_entry (register_chat s cid) uid cid (String.mk (strip_ws foodPart)) kcal ts,
        Reply.added (String.mk (strip_ws foodPart)) kcal) := by
    have hp2 : rsplit_once (strip_ws (after_first_space text.data)) = some (foodPart, kcalStr) := hp
    simp [cmd_add, hq, hp2, hk]
  rw [hstate]
  refine And.intro rfl ?_
  have hentries : (add_entry (register_chat s cid) uid cid
      (String.mk (strip_ws foodPart)) kcal ts).entries =
      s.entries ++ [⟨s.nextId, uid, cid, ts, String.mk (strip_ws foodPart), kcal⟩] := by
    simp [add_entry, register_chat_entries, register_chat_nextId]
  have hpred : entry_in_window uid cid d (d + 86400)
      ⟨s.nextId, uid, cid, ts, String.mk (strip_ws foodPart), kcal⟩ = true := by
    simp [entry_in_window, h1, Nat.le_of_lt h2]
  have hlist : (add_entry (register_chat s cid) uid cid
      (String.mk (strip_ws foodPart)) kcal ts).entries.filter
        (entry_in_window uid cid d (d + 86400)) =
      s.entries.filter (entry_in_window uid cid d (d + 86400)) ++
        [⟨s.nextId, uid, cid, ts, String.mk (strip_ws foodPart), kcal⟩] := by
    rw [hentries]
    simp [List.filter_append, hpred]
  have htoday : todays_entries (add_entry (register_chat s cid) uid cid
      (String.mk (strip_ws foodPart)) kcal ts) uid cid d =
      List.insertionSort (fun a b => a.1 ≤ b.1)
        ((s.entries.filter (entry_in_window uid cid d (d + 86400))).map
          (fun e => (e.id, e.food, e.kcal)) ++
          [(s.nextId, String.mk (strip_ws foodPart), kcal)]) := by
    unfold todays_entries
    simp only [_today_range]
    rw [hlist]
    simp [List.map_append]
  have hperm : (todays_entries (add_entry (register_chat s cid) uid cid
      (String.mk (strip_ws foodPart)) kcal ts) uid cid d).Perm
      ((s.entries.filter (entry_in_window uid cid d (d + 86400))).map
        (fun e => (e.id, e.food, e.kcal)) ++
        [(s.nextId, String.mk (strip_ws foodPart), kcal)]) := by
    rw [htoday]
    exact List.perm_insertionSort _ _
  constructor
  · exact hperm.mem_iff.mpr (List.mem_append_right _ (List.mem_singleton.mpr rfl))
  · rw [hperm.countP_eq]
    rw [List.countP_append]
    have hzero : ((s.entries.filter (entry_in_window uid cid d (d + 86400))).map
        (fun e => (e.id, e.food, e.kcal))).countP (fun t => t.1 == s.nextId) = 0 := by
      apply List.countP_eq_zero.mpr
      intro t htmem
      rcases List.mem_map.mp htmem with ⟨e, hemem, rfl⟩
      have hid : e.id < s.nextId := hwf e (List.mem_filter.mp hemem).1
      simp only [beq_iff_eq]
      exact Nat.ne_of_lt hid
    rw [hzero]
    simp

/-- Witness for C2: "/add fish and chips 500" at hour 12 is confirmed with
food "fish and chips" and 500 kcal. -/
theorem add_then_list_today_witness :
    parse_int "500".toList = some 500 ∧
    (cmd_add ⟨[], 1, []⟩ 1 5 "/add fish and chips 500" 12 7).2 =
      Reply.added "fish and chips" 500 := by
  refine ⟨by decide, ?_⟩
  have h := add_then_list_today ⟨[], 1, []⟩ 1 5 "/add fish and chips 500"
    "fish and chips".toList "500".toList 500 12 7 0 (by intro e he; cases he) (by decide)
    (by decide) (by decide) (by decide) (by decide)
  exact h.1.trans (by decide)

/-- C7 (amended): `todays_entries` returns exactly the (id, food, kcal)
projections of the stored rows of that user and chat whose timestamp lies
in the inclusive interval [start, start + 86400] (SQL BETWEEN, not the
half-open window), with the same multiplicities, ordered by id ascending. -/
theorem todays_entries_exact (s : Store) (uid cid : Int) (d : Nat) :
    List.Sorted (fun a b => a.1 ≤ b.1) (todays_entries s uid cid d) ∧
    ∀ t : Nat × String × Int,
      (todays_entries s uid cid d).countP (fun x => decide (x = t)) =
        ((s.entries.filter (entry_in_window uid cid d (d + 86400))).map
          (fun e => (e.id, e.food, e.kcal))).countP (fun x => decide (x = t)) := by
  constructor
  · unfold todays_entries
    exact List.sorted_insertionSort _ _
  · intro t
    have hperm := List.perm_insertionSort (fun a b : Nat × String × Int => a.1 ≤ b.1)
      ((s.entries.filter (entry_in_window uid cid d (d + 86400))).map
        (fun e => (e.id, e.food, e.kcal)))
    simpa [todays_entries, _today_range] using hperm.countP_eq (fun x => decide (x = t))

/-- C7 counterexample: an entry whose timestamp equals the window end
(the next local midnight, outside the half-open day window of the claim)
is returned by `todays_entries`. -/
theorem todays_entries_halfopen_cex :
    todays_entries ⟨[⟨1, 1, 1, 86400, "a", 10⟩], 2, []⟩ 1 1 0 = [(1, "a", 10)] ∧
    ¬ in_day_window_spec 0 86400 := by
  constructor
  · decide
  · simp [in_day_window_spec]

/-- C6 counterexample: `reset_today` deletes an entry of the same user and
chat whose timestamp equals the window end, although that instant lies
outside the half-open day window of the claim. -/
theorem reset_today_halfopen_cex :
    ¬ in_day_window_spec 0 86400 ∧
    (reset_today ⟨[⟨1, 1, 1, 86400, "a", 10⟩], 2, []⟩ 1 1 0).entries = [] := by
  constructor
  · simp [in_day_window_spec]
  · decide

/-- C6 (amended): `reset_today` deletes exactly the entries of that user and
chat whose timestamp lies in the inclusive interval [start, start + 86400]
(SQL BETWEEN): the multiplicity of a matching entry drops to zero, every
other entry keeps its multiplicity, and the chat registry and id counter
are untouched. -/
theorem reset_today_exact (s : Store) (uid cid : Int) (d : Nat) :
    (∀ e : Entry, (reset_today s uid cid d).entries.count e =
        (if entry_in_window uid cid d (d + 86400) e then 0 else s.entries.count e)) ∧
    (reset_today s uid cid d).chats = s.chats ∧
    (reset_today s uid cid d).nextId = s.nextId := by
  refine ⟨?_, rfl, rfl⟩
  intro e
  simp only [reset_today, _today_range]
  cases hB : entry_in_window uid cid d (d + 86400) e with
  | true =>
      simp only [if_pos]
      apply List.count_eq_zero.mpr
      intro hmem
      have h2 := (List.mem_filter.mp hmem).2
      simp [hB] at h2
  | false =>
      simp only [Bool.false_eq_true, if_neg, not_false_iff]
      exact List.count_filter (by simp [hB])

theorem run_recap_loop_filter (s : Store) (f : Int → Bool) (d : Nat) (l : List Int) :
    run_recap_loop s f d l = l.filter (fun cid => !((day_details s cid d).isEmpty)) := by
  induction l with
  | nil => rfl
  | cons cid rest ih =>
      by_cases hdet : day_details s cid d = []
      · simp [run_recap_loop, send_chat_recap, hdet, ih]
      · simp [run_recap_loop, send_chat_recap, hdet, ih, List.isEmpty_iff]

/-- C5: the nightly recap calls the notifier exactly for the registered
chats whose day breakdown is non-empty, the set of notified chats does not
depend on which deliveries raise (per-chat failures are caught and the
loop continues), a chat with an empty breakdown is skipped silently, and a
chat with a non-empty breakdown is always attempted. -/
theorem nightly_recap_isolation (s : Store) (f g : Int → Bool) (d : Nat) :
    nightly_job s f d = (all_chat_ids s).filter (fun cid => !((day_details s cid d).isEmpty)) ∧
    nightly_job s f d = nightly_job s g d ∧
    ∀ cid ∈ all_chat_ids s,
      (day_details s cid d = [] → cid ∉ nightly_job s f d) ∧
      (day_details s cid d ≠ [] → cid ∈ nightly_job s f d) := by
  refine ⟨run_recap_loop_filter s f d _, ?_, ?_⟩
  · rw [nightly_job, nightly_job, run_recap_loop_filter, run_recap_loop_filter]
  · intro cid hmem
    constructor
    · intro hdet hin
      rw [nightly_job, run_recap_loop_filter] at hin
      have h2 := (List.mem_filter.mp hin).2
      simp [hdet] at h2
    · intro hdet
      rw [nightly_job, run_recap_loop_filter]
      exact List.mem_filter.mpr ⟨hmem, by simp [List.isEmpty_iff, hdet]⟩

/-- Witness for C5: in `storeA` chat 1 has an entry, so the recap contacts
chat 1 even when every delivery fails. -/
theorem nightly_recap_isolation_witness :
    1 ∈ all_chat_ids storeA ∧ day_details storeA 1 0 ≠ [] ∧
      1 ∈ nightly_job storeA (fun _ => false) 0 :=
  ⟨by decide, by decide,
    ((nightly_recap_isolation storeA (fun _ => false) (fun _ => true) 0).2.2 1
      (by decide)).2 (by decide)⟩

theorem lookup_add_row (out : List (Int × List (String × Int))) (v u : Int) (p : String × Int) :
    lookup_group u (add_row out v p) =
      if v = u then some ((lookup_group u out).getD [] ++ [p]) else lookup_group u out := by
  induction out with
  | nil =>
      by_cases hvu : v = u <;> simp [add_row, lookup_group, hvu]
  | cons hd rest ih =>
      obtain ⟨w, l⟩ := hd
      by_cases hwv : w = v
      · subst hwv
        by_cases hwu : w = u <;> simp [add_row, lookup_group, hwu]
      · by_cases hwu : w = u
        · have hvu : ¬(v = u) := fun h2 => hwv (hwu.trans h2.symm)
          have huv : ¬(u = v) := fun h2 => hwv (hwu.trans h2)
          simp [add_row, lookup_group, hwv, hwu, hvu, huv]
        · simp [add_row, lookup_group, hwv, hwu, ih]

theorem lookup_fold_getD (rows : List (Int × String × Int))
    (out : List (Int × List (String × Int))) (u : Int) :
    (lookup_group u (rows.foldl (fun o r => add_row o r.1 r.2) out)).getD [] =
      (lookup_group u out).getD [] ++
        ((rows.filter (fun r => r.1 == u)).map (fun r => r.2)) := by
  induction rows generalizing out with
  | nil => simp
  | cons r rest ih =>
      obtain ⟨v, p⟩ := r
      rw [List.foldl_cons, ih]
      by_cases hvu : v = u
      · simp [lookup_add_row, hvu]
      · simp [lookup_add_row, hvu]

theorem lookup_fold_isSome (rows : List (Int × String × Int))
    (out : List (Int × List (String × Int))) (u : Int) :
    (lookup_group u (rows.foldl (fun o r => add_row o r.1 r.2) out)).isSome =
      ((lookup_group u out).isSome || rows.any (fun r => r.1 == u)) := by
  induction rows generalizing out with
  | nil => simp
  | cons r rest ih =>
      obtain ⟨v, p⟩ := r
      rw [List.foldl_cons, ih]
      by_cases hvu : v = u
      · simp [lookup_add_row, hvu]
      · have hbeq : (v == u) = false := beq_eq_false_iff_ne.mpr hvu
        simp [lookup_add_row, hvu, hbeq]

/-- C8 (amended): in the mapping produced by `day_details`, the group of a
user is exactly the (food, kcal) projection, in stored (insertion) order,
of that user's rows of the chat whose timestamp lies in the inclusive
interval [start, start + 86400] (SQL BETWEEN, not the half-open day
window), and a user has no group exactly when they have no such row. -/
theorem day_details_per_user (s : Store) (cid : Int) (d : Nat) (u : Int) :
    (lookup_group u (day_details s cid d)).getD [] =
      ((day_rows s cid d).filter (fun r => r.1 == u)).map (fun r => r.2) ∧
    (lookup_group u (day_details s cid d) = none ↔
      (day_rows s cid d).filter (fun r => r.1 == u) = []) := by
  constructor
  · have h := lookup_fold_getD (day_rows s cid d) [] u
    simpa [day_details, lookup_group] using h
  · have h := lookup_fold_isSome (day_rows s cid d) [] u
    simp only [lookup_group, Option.isSome_none, Bool.false_or] at h
    rw [← Option.not_isSome_iff_eq_none]
    simp only [day_details] at *
    rw [h]
    simp only [List.any_eq_true, List.filter_eq_nil_iff, not_exists, beq_iff_eq]
    constructor
    · intro hno r hmem hru
      exact hno r ⟨hmem, hru⟩
    · intro hall r hr
      exact hall r hr.1 hr.2

/-- C8 counterexample: an entry stamped exactly at the window end (the next
local midnight, outside the half-open day window of the claim) still
appears in its user's sequence in the `day_details` mapping. -/
theorem day_details_halfopen_cex :
    ¬ in_day_window_spec 0 86400 ∧
    (lookup_group 7 (day_details ⟨[⟨1, 7, 1, 86400, "a", 10⟩], 2, []⟩ 1 0)).getD [] =
      [("a", 10)] := by
  constructor
  · simp [in_day_window_spec]
  · decide

theorem add_row_ne_nil (out : List (Int × List (String × Int))) (u : Int) (p : String × Int) :
    add_row out u p ≠ [] := by
  cases out with
  | nil => simp [add_row]
  | cons hd rest =>
      obtain ⟨v, l⟩ := hd
      by_cases h : v = u <;> simp [add_row, h]

theorem fold_add_row_ne_nil (rows : List (Int × String × Int))
    (out : List (Int × List (String × Int))) (h : out ≠ []) :
    rows.foldl (fun o r => add_row o r.1 r.2) out ≠ [] := by
  induction rows generalizing out with
  | nil => simpa using h
  | cons r rest ih =>
      rw [List.foldl_cons]
      exact ih _ (add_row_ne_nil _ _ _)

theorem add_row_groups_ne_nil (out : List (Int × List (String × Int))) (u : Int)
    (p : String × Int) (h : ∀ q ∈ out, q.2 ≠ []) :
    ∀ q ∈ add_row out u p, q.2 ≠ [] := by
  induction out with
  | nil =>
      intro q hq
      simp [add_row] at hq
      subst hq
      simp
  | cons hd rest ih =>
      obtain ⟨v, l⟩ := hd
      intro q hq
      by_cases hvu : v = u
      · subst hvu
        simp [add_row] at hq
        rcases hq with hq | hq
        · subst hq; simp
        · exact h q (List.mem_cons_of_mem _ hq)
      · simp [add_row, hvu] at hq
        rcases hq with hq | hq
        · subst hq
          exact h (v, l) (List.mem_cons_self _ _)
        · exact ih (fun q hq2 => h q (List.mem_cons_of_mem _ hq2)) q hq

theorem fold_groups_ne_nil (rows : List (Int × String × Int))
    (out : List (Int × List (String × Int))) (h : ∀ q ∈ out, q.2 ≠ []) :
    ∀ q ∈ rows.foldl (fun o r => add_row o r.1 r.2) out, q.2 ≠ [] := by
  induction rows generalizing out with
  | nil => simpa using h
  | cons r rest ih =>
      rw [List.foldl_cons]
      exact ih _ (add_row_groups_ne_nil _ _ _ h)

/-- C10 (amended): every group in a `day_details` mapping is non-empty, the
mapping is empty exactly when the chat has no row whose timestamp lies in
the inclusive interval [start, start + 86400] (SQL BETWEEN, not the
half-open day window), and that is exactly the condition under which
`send_chat_recap` skips the chat without calling the notifier. -/
theorem day_details_groups_nonempty (s : Store) (cid : Int) (d : Nat) :
    (∀ q ∈ day_details s cid d, q.2 ≠ []) ∧
    (day_details s cid d = [] ↔ day_rows s cid d = []) ∧
    (∀ deliver : Int → Bool,
      (send_chat_recap s deliver cid d = none ↔ day_rows s cid d = [])) := by
  have hempty : day_details s cid d = [] ↔ day_rows s cid d = [] := by
    constructor
    · intro h
      by_contra hrows
      rcases hr : day_rows s cid d with _ | ⟨r, rest⟩
      · exact hrows hr
      · have hne : day_details s cid d ≠ [] := by
          simp only [day_details, hr, List.foldl_cons]
          exact fold_add_row_ne_nil rest _ (add_row_ne_nil _ _ _)
        exact hne h
    · intro h
      simp [day_details, h]
  refine ⟨?_, hempty, ?_⟩
  · exact fold_groups_ne_nil (day_rows s cid d) [] (by simp)
  · intro deliver
    by_cases hdet : day_details s cid d = []
    · simp [send_chat_recap, hdet, hempty.mp hdet]
    · have hne : ¬ day_rows s cid d = [] := fun h => hdet (hempty.mpr h)
      simp [send_chat_recap, hdet, hne]

/-- Witness for C10: the single group of `storeA`'s chat 1 is non-empty. -/
theorem day_details_groups_nonempty_witness :
    ((7 : Int), [(("a" : String), (5 : Int))]) ∈ day_details storeA 1 0 ∧
      ((7 : Int), [(("a" : String), (5 : Int))]).2 ≠ ([] : List (String × Int)) :=
  ⟨by decide, (day_details_groups_nonempty storeA 1 0).1 (7, [("a", 5)]) (by decide)⟩

/-- C10 counterexample: a chat whose only entry is stamped exactly at the
window end has no entry in the half-open day window of the claim, yet its
`day_details` mapping is non-empty and the recap does call the notifier
instead of skipping the chat. -/
theorem recap_skip_halfopen_cex :
    ¬ in_day_window_spec 0 86400 ∧
    day_details ⟨[⟨1, 7, 1, 86400, "a", 10⟩], 2, []⟩ 1 0 ≠ [] ∧
    send_chat_recap ⟨[⟨1, 7, 1, 86400, "a", 10⟩], 2, []⟩ (fun _ => true) 1 0 ≠ none := by
  refine ⟨by simp [in_day_window_spec], by decide, by decide⟩
